import Mathlib

/-!
Verification development for the ParlaPlate repository.

Shallow embedding of the pure core of the code base:
  - src/parlaplate/schemas.py   (data model)
  - src/parlaplate/utils.py     (price bucketing, JSON extraction)
  - src/parlaplate/match.py     (constraint filtering, ranking, embedding cache key)
  - src/parlaplate/agent.py     (intent gate, decision normalisation, respond)

External effects (OpenAI completion and embedding calls, the filesystem,
numpy's random generator, the wall clock) are passed in as explicit oracle
arguments; everything else is translated directly from the source.

Numeric conventions: similarity scores and prices are modelled as rationals
(the Python code uses IEEE floats; no claim in this development depends on
rounding behaviour).  String lowering is modelled with the ASCII lowering of
Lean's Char.toLower; every vocabulary constant in the source is already
lower-case, and no claim exercises non-ASCII upper-case input.
-/

namespace ParlaPlate

/-! ## Python string primitives -/

/-- Python str.lower modelled with ASCII Char.toLower. -/
def pyLower (s : String) : String :=
  ⟨s.toList.map Char.toLower⟩

/-- Python whitespace for str.strip / lstrip / rstrip. -/
def pyIsSpace (c : Char) : Bool :=
  c = ' ' || c = '\t' || c = '\n' || c = '\r' || c = Char.ofNat 11 || c = Char.ofNat 12

/-- Python substring test (the `in` operator) on character lists. -/
def containsSub (needle : List Char) : List Char → Bool
  | [] => needle.isEmpty
  | c :: t => needle.isPrefixOf (c :: t) || containsSub needle t

/-- Python substring test on strings. -/
def strIn (needle hay : String) : Bool :=
  containsSub needle.toList hay.toList

/-- Python str.strip on character lists. -/
def pyStripChars (cs : List Char) : List Char :=
  ((cs.dropWhile pyIsSpace).reverse.dropWhile pyIsSpace).reverse

/-- Python str.strip. -/
def pyStrip (s : String) : String :=
  ⟨pyStripChars s.toList⟩

/-- Python str.lstrip. -/
def pyLstrip (s : String) : String :=
  ⟨s.toList.dropWhile pyIsSpace⟩

/-- Python str.rstrip. -/
def pyRstrip (s : String) : String :=
  ⟨(s.toList.reverse.dropWhile pyIsSpace).reverse⟩

/-- Digit run to a natural number. -/
def digitsToNat (ds : List Char) : Nat :=
  ds.foldl (fun acc c => acc * 10 + (c.toNat - 48)) 0

/-! ## Data model (src/parlaplate/schemas.py) -/

/-- MenuItem (schemas.py lines 11-19). -/
structure MenuItem where
  name : String
  price : Option String
  ingredients : List String
  keywords : List String
  allergens : List String
  category : Option String
  spice_level : Option String
deriving DecidableEq

/-- RestaurantProfile (schemas.py lines 22-31). -/
structure RestaurantProfile where
  name : Option String
  display_name : Option String
  cuisine_tags : List String
  price_level : Option String
  service_style : List String
  diet_coverage : List String
  popular_categories : List String
  summary_text : String
deriving DecidableEq

/-- MenuJSON (schemas.py lines 34-37). -/
structure MenuJSON where
  restaurant : RestaurantProfile
  items : List MenuItem
deriving DecidableEq

/-- OrderItem (schemas.py lines 40-43). -/
structure OrderItem where
  name : String
  notes : Option String
deriving DecidableEq

/-- Order (schemas.py lines 46-53); the timestamp comes from the clock oracle. -/
structure Order where
  order : List OrderItem
  persona : String
  restaurant : String
  confidence : ℚ
  menu_json : String
  timestamp : Nat
deriving DecidableEq

/-- ChatTurn (schemas.py lines 56-58). -/
structure ChatTurn where
  role : String
  content : String
deriving DecidableEq

/-- The constraints dictionary consumed by match.py, as the closed shape the
code reads out of it with .get: keys avoid_allergens, diet, price_preference. -/
structure Constraints where
  avoid_allergens : List String
  diet : List String
  price_preference : Option String
deriving DecidableEq

/-- Placeholder item used to express Python list indexing items[i] (always
in range in the code paths proved below). -/
def dummyMenuItem : MenuItem :=
  ⟨"", none, [], [], [], none, none⟩

/-! ## price_bucket (src/parlaplate/utils.py lines 92-123) -/

/-- First match of the regex for a number: a maximal digit run optionally
followed by a dot and a further non-empty digit run; returns the integer
digits together with the remaining characters after them. -/
def findFirstNumber : List Char → Option (List Char × List Char)
  | [] => none
  | c :: t =>
    if c.isDigit then
      some ((c :: t).takeWhile Char.isDigit, (c :: t).dropWhile Char.isDigit)
    else
      findFirstNumber t

/-- Fractional continuation of the matched number: a dot followed by at least
one digit contributes digits over a power of ten, otherwise nothing. -/
def fracPart : List Char → ℚ
  | '.' :: r =>
    let fr := r.takeWhile Char.isDigit
    if fr.isEmpty then 0 else (digitsToNat fr : ℚ) / ((10 : ℚ) ^ fr.length)
  | _ => 0

/-- price_bucket: first numeric token of the price string, bucketed at the
20 and 50 thresholds; None for a missing, empty or numberless price. -/
def price_bucket (price_str : Option String) : Option String :=
  match price_str with
  | none => none
  | some s =>
    if s = "" then none
    else
      match findFirstNumber s.toList with
      | none => none
      | some (intDigits, rest) =>
        let v : ℚ := (digitsToNat intDigits : ℚ) + fracPart rest
        if v < 20 then some "low"
        else if v < 50 then some "medium"
        else some "high"

/-! ## Constraint filtering (src/parlaplate/match.py lines 145-193) -/

/-- Meat vocabulary for the vegetarian diet heuristic (match.py line 182). -/
def meatTerms : List String :=
  ["chicken", "beef", "lamb", "fish", "seafood", "turkey", "pork"]

/-- Vocabulary for the vegan diet heuristic (match.py line 188). -/
def nonVeganTerms : List String :=
  ["chicken", "beef", "lamb", "fish", "seafood", "cheese", "milk", "cream", "butter"]

/-- item_text built in the diet branch: lowered keywords, then lowered
ingredients, then the lowered name, joined by spaces (match.py lines 174-176). -/
def itemFilterText (it : MenuItem) : String :=
  String.intercalate " " (it.keywords.map pyLower ++ it.ingredients.map pyLower ++ [pyLower it.name])

/-- Allergen intersection test (match.py lines 166-168): some avoided
allergen, lowered, occurs among the item's lowered allergens. -/
def allergenHit (avoid : List String) (it : MenuItem) : Bool :=
  avoid.any (fun a => (it.allergens.map pyLower).contains (pyLower a))

/-- One iteration of the diet loop (match.py lines 178-191): vegetarian and
vegan tags exclude on their vocabularies, any other tag imposes nothing. -/
def dietTagOk (it : MenuItem) (d : String) : Bool :=
  if pyLower d = "vegetarian" then !(meatTerms.any fun t => strIn t (itemFilterText it))
  else if pyLower d = "vegan" then !(nonVeganTerms.any fun t => strIn t (itemFilterText it))
  else true

/-- Diet loop of apply_constraints_filter (match.py lines 173-191): the item
survives every requested diet tag. -/
def dietOk (diets : List String) (it : MenuItem) : Bool :=
  diets.all (dietTagOk it)

/-- Mask value for one item (body of the loop in match.py lines 164-191). -/
def itemPassesFilter (cons : Constraints) (it : MenuItem) : Bool :=
  if !cons.avoid_allergens.isEmpty && allergenHit cons.avoid_allergens it then false
  else if !cons.diet.isEmpty then dietOk cons.diet it
  else true

/-- apply_constraints_filter: the boolean keep-mask, one entry per item. -/
def apply_constraints_filter (items : List MenuItem) (cons : Constraints) : List Bool :=
  items.map (itemPassesFilter cons)

/-! ## Ranking (src/parlaplate/match.py lines 196-267)

The similarity vector is an input: in the source it is either the cosine
similarity of externally produced embeddings or, for an empty query, a
vector of random numbers, so every claim is proved for an arbitrary
rational score vector. -/

/-- Price damping (match.py lines 253-256): under a low price preference the
score of every item with a truthy price in the high bucket is multiplied
by 0.7. -/
def dampedSims (items : List MenuItem) (sims : List ℚ) (pricePref : Option String) : List ℚ :=
  if pricePref = some "low" then
    List.zipWith
      (fun it s =>
        if priceTruthy it.price && decide (price_bucket it.price = some "high") then s * (7 / 10)
        else s)
      items sims
  else sims
where
  /-- Python truthiness of the optional price string. -/
  priceTruthy : Option String → Bool
    | none => false
    | some p => !(p = "")

/-- np.where(constraint_mask, similarities, -1.0) (match.py line 259). -/
def finalScores (items : List MenuItem) (sims : List ℚ) (cons : Constraints) : List ℚ :=
  List.zipWith (fun keep s => if keep then s else -1)
    (apply_constraints_filter items cons)
    (dampedSims items sims cons.price_preference)

/-- Key order of a stable ascending argsort: strictly smaller score first,
ties by original index. -/
def argsortKeyLe (fs : List ℚ) (i j : Nat) : Prop :=
  fs.getD i 0 < fs.getD j 0 ∨ (fs.getD i 0 = fs.getD j 0 ∧ i ≤ j)

instance argsortKeyLe.decRel (fs : List ℚ) : DecidableRel (argsortKeyLe fs) := fun _ _ =>
  inferInstanceAs (Decidable (_ ∨ _))

/-- np.argsort(final_scores) (match.py line 262), modelled as the stable
ascending argsort.  numpy's default sort runs its stable insertion sort on
spans of at most sixteen elements, so below that cutoff the model matches
numpy's tie order exactly; for longer arrays introsort leaves the relative
order of tied scores unspecified and this model fixes one admissible
sorted permutation of the indices.  Every theorem below whose conclusion
depends on the order of ties is therefore asserted only for score vectors
with at most fifteen entries; the other conclusions drawn through this
definition (membership, the zero return boundary, score-sortedness, the
length bound) hold for every sorted index permutation alike. -/
def stableArgsort (fs : List ℚ) : List Nat :=
  List.insertionSort (argsortKeyLe fs) (List.range fs.length)

/-- np.argsort(final_scores)[::-1][:top_k] (match.py line 262). -/
def topIndices (fs : List ℚ) (top_k : Nat) : List Nat :=
  (stableArgsort fs).reverse.take top_k

/-- valid_indices (match.py line 265): top indices whose final score is
at least zero. -/
def rankIndices (items : List MenuItem) (sims : List ℚ) (cons : Constraints) (top_k : Nat) :
    List Nat :=
  (topIndices (finalScores items sims cons) top_k).filter
    fun i => decide ((0 : ℚ) ≤ (finalScores items sims cons).getD i 0)

/-- rank_candidates (match.py lines 196-267) given the similarity vector. -/
def rank_candidates (items : List MenuItem) (sims : List ℚ) (cons : Constraints) (top_k : Nat) :
    List MenuItem :=
  if items.isEmpty then []
  else (rankIndices items sims cons top_k).map fun i => items.getD i dummyMenuItem

/-! ## JSON values and a model of json.loads

Python's json.loads on a str: RFC 8259 grammar plus the NaN, Infinity and
-Infinity constants, strict strings (unescaped control characters rejected),
full input consumed.  Numbers are represented exactly as rationals; no claim
depends on float rounding.  NaN and the infinities are kept as dedicated
constructors. -/

inductive Json where
  | null
  | bool (b : Bool)
  | num (q : ℚ)
  | nan
  | inf (neg : Bool)
  | str (s : String)
  | arr (elems : List Json)
  | obj (fields : List (String × Json))

/-- The four whitespace characters skipped by the JSON grammar. -/
def jsonSkipWs (cs : List Char) : List Char :=
  cs.dropWhile fun c => c = ' ' || c = '\t' || c = '\n' || c = '\r'

/-- Value of a hexadecimal digit. -/
def hexVal (c : Char) : Option Nat :=
  if '0' ≤ c ∧ c ≤ '9' then some (c.toNat - 48)
  else if 'a' ≤ c ∧ c ≤ 'f' then some (c.toNat - 87)
  else if 'A' ≤ c ∧ c ≤ 'F' then some (c.toNat - 70)
  else none

/-- Prepend a character to the body of a successful string parse. -/
def consBody (ch : Char) : Option (List Char × List Char) → Option (List Char × List Char)
  | some (body, rest) => some (ch :: body, rest)
  | none => none

/-- Simple one-character JSON escapes. -/
def simpleEscape (e : Char) : Option Char :=
  if e = Char.ofNat 34 then some (Char.ofNat 34)
  else if e = Char.ofNat 92 then some (Char.ofNat 92)
  else if e = '/' then some '/'
  else if e = 'b' then some (Char.ofNat 8)
  else if e = 'f' then some (Char.ofNat 12)
  else if e = 'n' then some '\n'
  else if e = 'r' then some '\r'
  else if e = 't' then some '\t'
  else none

/-- JSON string body after the opening quote; surrogate pairs are combined,
and a lone surrogate (which Python would keep in the str) becomes the
replacement character, an approximation no claim exercises. -/
def parseStringBody : Nat → List Char → Option (List Char × List Char)
  | 0, _ => none
  | _, [] => none
  | fuel + 1, c :: t =>
    if c = Char.ofNat 34 then some ([], t)
    else if c = Char.ofNat 92 then
      match t with
      | 'u' :: a :: b :: cc :: d :: t3 =>
        match hexVal a, hexVal b, hexVal cc, hexVal d with
        | some va, some vb, some vc, some vd =>
          let u := ((va * 16 + vb) * 16 + vc) * 16 + vd
          if 0xD800 ≤ u ∧ u ≤ 0xDBFF then
            match t3 with
            | x :: y :: a2 :: b2 :: c2 :: d2 :: t5 =>
              if x = Char.ofNat 92 ∧ y = 'u' then
                match hexVal a2, hexVal b2, hexVal c2, hexVal d2 with
                | some wa, some wb, some wc, some wd =>
                  let u2 := ((wa * 16 + wb) * 16 + wc) * 16 + wd
                  if 0xDC00 ≤ u2 ∧ u2 ≤ 0xDFFF then
                    consBody (Char.ofNat (0x10000 + (u - 0xD800) * 0x400 + (u2 - 0xDC00)))
                      (parseStringBody fuel t5)
                  else consBody (Char.ofNat 0xFFFD) (parseStringBody fuel t3)
                | _, _, _, _ => none
              else consBody (Char.ofNat 0xFFFD) (parseStringBody fuel t3)
            | _ => consBody (Char.ofNat 0xFFFD) (parseStringBody fuel t3)
          else if 0xDC00 ≤ u ∧ u ≤ 0xDFFF then
            consBody (Char.ofNat 0xFFFD) (parseStringBody fuel t3)
          else consBody (Char.ofNat u) (parseStringBody fuel t3)
        | _, _, _, _ => none
      | e :: t2 =>
        match simpleEscape e with
        | some ch => consBody ch (parseStringBody fuel t2)
        | none => none
      | [] => none
    else if c.toNat < 0x20 then none
    else consBody c (parseStringBody fuel t)

/-- JSON number after an optional minus sign has been stripped:
(0 or a run not starting with 0), optional fraction, optional exponent. -/
def parseNumberBody (cs : List Char) : Option (ℚ × List Char) :=
  let intRun := cs.takeWhile Char.isDigit
  let rest1 := cs.dropWhile Char.isDigit
  if intRun.isEmpty then none
  else if intRun.length > 1 ∧ intRun.headD '0' = '0' then none
  else
    let intVal : ℚ := (digitsToNat intRun : ℚ)
    let (fracVal, rest2) :=
      match rest1 with
      | '.' :: r =>
        let fr := r.takeWhile Char.isDigit
        if fr.isEmpty then ((none : Option ℚ), rest1)
        else (some ((digitsToNat fr : ℚ) / ((10 : ℚ) ^ fr.length)), r.dropWhile Char.isDigit)
      | _ => (none, rest1)
    match rest2 with
    | '.' :: _ =>
      match fracVal with
      | none => none
      | some f => some (intVal + f, rest2)
    | e :: r3 =>
      if e = 'e' ∨ e = 'E' then
        let (negExp, r4) :=
          match r3 with
          | '-' :: r => (true, r)
          | '+' :: r => (false, r)
          | _ => (false, r3)
        let expRun := r4.takeWhile Char.isDigit
        if expRun.isEmpty then none
        else
          let m : ℚ := intVal + (fracVal.getD 0)
          let ex := digitsToNat expRun
          let v : ℚ := if negExp then m / ((10 : ℚ) ^ ex) else m * ((10 : ℚ) ^ ex)
          some (v, r4.dropWhile Char.isDigit)
      else some (intVal + (fracVal.getD 0), rest2)
    | [] => some (intVal + (fracVal.getD 0), rest2)

mutual

/-- Recursive descent for json.loads, fuelled; the fuel chosen at top level
always suffices for the input length. -/
def parseValue : Nat → List Char → Option (Json × List Char)
  | 0, _ => none
  | fuel + 1, cs =>
    match cs with
    | [] => none
    | c :: t =>
      if c = Char.ofNat 34 then
        match parseStringBody (t.length + 1) t with
        | some (body, rest) => some (.str ⟨body⟩, rest)
        | none => none
      else if c = '[' then
        let t2 := jsonSkipWs t
        match t2 with
        | ']' :: r => some (.arr [], r)
        | _ => parseArrElems fuel t2 []
      else if c = Char.ofNat 123 then
        let t2 := jsonSkipWs t
        match t2 with
        | [] => none
        | c2 :: r => if c2 = Char.ofNat 125 then some (.obj [], r) else parseObjFields fuel t2 []
      else if ['t', 'r', 'u', 'e'].isPrefixOf cs then some (.bool true, cs.drop 4)
      else if ['f', 'a', 'l', 's', 'e'].isPrefixOf cs then some (.bool false, cs.drop 5)
      else if ['n', 'u', 'l', 'l'].isPrefixOf cs then some (.null, cs.drop 4)
      else if ['N', 'a', 'N'].isPrefixOf cs then some (.nan, cs.drop 3)
      else if ['I', 'n', 'f', 'i', 'n', 'i', 't', 'y'].isPrefixOf cs then some (.inf false, cs.drop 8)
      else if ['-', 'I', 'n', 'f', 'i', 'n', 'i', 't', 'y'].isPrefixOf cs then
        some (.inf true, cs.drop 9)
      else if c = '-' then
        match parseNumberBody t with
        | some (v, rest) => some (.num (-v), rest)
        | none => none
      else if c.isDigit then
        match parseNumberBody cs with
        | some (v, rest) => some (.num v, rest)
        | none => none
      else none

/-- Elements of a non-empty array, after the opening bracket and whitespace. -/
def parseArrElems : Nat → List Char → List Json → Option (Json × List Char)
  | 0, _, _ => none
  | fuel + 1, cs, acc =>
    match parseValue fuel cs with
    | none => none
    | some (v, rest) =>
      match jsonSkipWs rest with
      | ',' :: r => parseArrElems fuel (jsonSkipWs r) (acc ++ [v])
      | ']' :: r => some (.arr (acc ++ [v]), r)
      | _ => none

/-- Fields of a non-empty object, after the opening brace and whitespace. -/
def parseObjFields : Nat → List Char → List (String × Json) → Option (Json × List Char)
  | 0, _, _ => none
  | fuel + 1, cs, acc =>
    match cs with
    | c :: t =>
      if c = Char.ofNat 34 then
        match parseStringBody (t.length + 1) t with
        | none => none
        | some (keyBody, rest1) =>
          match jsonSkipWs rest1 with
          | ':' :: r2 =>
            match parseValue fuel (jsonSkipWs r2) with
            | none => none
            | some (v, rest2) =>
              match jsonSkipWs rest2 with
              | ',' :: r3 => parseObjFields fuel (jsonSkipWs r3) (acc ++ [(⟨keyBody⟩, v)])
              | c4 :: r4 =>
                if c4 = Char.ofNat 125 then some (.obj (acc ++ [(⟨keyBody⟩, v)]), r4) else none
              | [] => none
          | _ => none
      else none
    | [] => none

end

/-- json.loads on a string: parse one value and require full consumption. -/
def jsonParse (s : String) : Option Json :=
  let cs := jsonSkipWs s.toList
  match parseValue (2 * cs.length + 4) cs with
  | some (v, rest) => if (jsonSkipWs rest).isEmpty then some v else none
  | none => none

/-- Whether json.loads succeeds on the string. -/
def jsonValid (s : String) : Bool :=
  (jsonParse s).isSome

/-! ## extract_json_from_response (src/parlaplate/utils.py lines 166-245) -/

/-- One bracket-depth scan (utils.py lines 180-201 for square brackets and
lines 204-225 for braces, which are the same loop with the two bracket
characters swapped in).  The counter is an integer, the start marker is
reset and the counter zeroed after a failed parse attempt, exactly as in
the source. -/
def bracketScan (openC closeC : Char) (full : List Char) :
    List Char → Nat → Option Nat → Int → Option String
  | [], _, _, _ => none
  | c :: rest, i, start, cnt =>
    if c = openC then
      let start2 := match start with | none => some i | some st => some st
      bracketScan openC closeC full rest (i + 1) start2 (cnt + 1)
    else if c = closeC then
      let cnt2 := cnt - 1
      match start with
      | some st =>
        if cnt2 = 0 then
          let cand : String := ⟨(full.drop st).take (i + 1 - st)⟩
          if jsonValid cand then some cand
          else bracketScan openC closeC full rest (i + 1) none 0
        else bracketScan openC closeC full rest (i + 1) start cnt2
      | none => bracketScan openC closeC full rest (i + 1) none cnt2
    else bracketScan openC closeC full rest (i + 1) start cnt

/-- Whitespace as matched by the regex escape backslash-s (ASCII part). -/
def reIsSpace (c : Char) : Bool :=
  c = ' ' || c = '\t' || c = '\n' || c = '\r' || c = Char.ofNat 11 || c = Char.ofNat 12

/-- Completion of the first fallback pattern (array of objects) after an
opening brace: the lazy dot-star stops at the first closing brace that is
followed by optional whitespace and a closing bracket; returns the number
of characters consumed. -/
def pat1After : List Char → Nat → Option Nat
  | [], _ => none
  | c :: t, n =>
    if c = Char.ofNat 125 then
      let wsLen := (t.takeWhile reIsSpace).length
      match t.drop wsLen with
      | ']' :: _ => some (n + 1 + wsLen + 1)
      | _ => pat1After t (n + 1)
    else pat1After t (n + 1)

/-- re.search of the first fallback pattern: an opening bracket, optional
whitespace, an object body as above; leftmost match wins. -/
def pat1Search (full : List Char) : List Char → Nat → Option String
  | [], _ => none
  | c :: rest, i =>
    if c = '[' then
      let wsLen := (rest.takeWhile reIsSpace).length
      match rest.drop wsLen with
      | c2 :: r2 =>
        if c2 = Char.ofNat 123 then
          match pat1After r2 0 with
          | some len => some ⟨(full.drop i).take (1 + wsLen + 1 + len)⟩
          | none => pat1Search full rest (i + 1)
        else pat1Search full rest (i + 1)
      | [] => pat1Search full rest (i + 1)
    else pat1Search full rest (i + 1)

/-- re.search of a lazy enclosed pair: the first opening character that has
a closing character after it, up to the nearest such closing character
(the second and third fallback patterns). -/
def lazyEnclosedSearch (openC closeC : Char) (full : List Char) : List Char → Nat → Option String
  | [], _ => none
  | c :: rest, i =>
    if c = openC then
      match rest.findIdx? (fun c2 => c2 = closeC) with
      | some d => some ⟨(full.drop i).take (d + 2)⟩
      | none => lazyEnclosedSearch openC closeC full rest (i + 1)
    else lazyEnclosedSearch openC closeC full rest (i + 1)

/-- The regex fallback chain (utils.py lines 228-243): each pattern's first
match is accepted only if it parses as JSON, otherwise the next pattern is
tried. -/
def regexFallback (full : List Char) : Option String :=
  match pat1Search full full 0 with
  | some cand =>
    if jsonValid cand then some cand
    else secondPattern full
  | none => secondPattern full
where
  thirdPattern (full : List Char) : Option String :=
    match lazyEnclosedSearch (Char.ofNat 123) (Char.ofNat 125) full full 0 with
    | some cand => if jsonValid cand then some cand else none
    | none => none
  secondPattern (full : List Char) : Option String :=
    match lazyEnclosedSearch '[' ']' full full 0 with
    | some cand => if jsonValid cand then some cand else thirdPattern full
    | none => thirdPattern full

/-- extract_json_from_response: strip, array bracket scan, object bracket
scan, then the regex fallbacks (utils.py lines 166-245). -/
def extract_json_from_response (response_text : String) : Option String :=
  let s := pyStrip response_text
  let full := s.toList
  match bracketScan '[' ']' full full 0 none 0 with
  | some j => some j
  | none =>
    match bracketScan (Char.ofNat 123) (Char.ofNat 125) full full 0 none 0 with
    | some j => some j
    | none => regexFallback full

/-! ## SHA-256 (the hashlib.sha256 call in match.py line 77)

A direct executable implementation over naturals reduced mod 2 to the 32,
so the cache-key derivation can be evaluated on concrete menus. -/

/-- UTF-8 encoding of one character. -/
def utf8Bytes (c : Char) : List Nat :=
  let n := c.toNat
  if n < 0x80 then [n]
  else if n < 0x800 then [0xC0 + n / 64, 0x80 + n % 64]
  else if n < 0x10000 then [0xE0 + n / 4096, 0x80 + (n / 64) % 64, 0x80 + n % 64]
  else [0xF0 + n / 262144, 0x80 + (n / 4096) % 64, 0x80 + (n / 64) % 64, 0x80 + n % 64]

/-- UTF-8 bytes of a string (str.encode in Python). -/
def strBytes (s : String) : List Nat :=
  s.toList.foldr (fun c acc => utf8Bytes c ++ acc) []

/-- Addition mod 2 to the 32. -/
def add32 (a b : Nat) : Nat :=
  (a + b) % 4294967296

/-- Right rotation of a 32-bit word. -/
def rotr32 (n x : Nat) : Nat :=
  Nat.lor (x >>> n) ((x % (2 ^ n)) <<< (32 - n))

/-- The 64 SHA-256 round constants. -/
def sha256K : List Nat :=
  [1116352408, 1899447441, 3049323471, 3921009573, 961987163,
   1508970993, 2453635748, 2870763221, 3624381080, 310598401,
   607225278, 1426881987, 1925078388, 2162078206, 2614888103,
   3248222580, 3835390401, 4022224774, 264347078, 604807628,
   770255983, 1249150122, 1555081692, 1996064986, 2554220882,
   2821834349, 2952996808, 3210313671, 3336571891, 3584528711,
   113926993, 338241895, 666307205, 773529912, 1294757372,
   1396182291, 1695183700, 1986661051, 2177026350, 2456956037,
   2730485921, 2820302411, 3259730800, 3345764771, 3516065817,
   3600352804, 4094571909, 275423344, 430227734, 506948616,
   659060556, 883997877, 958139571, 1322822218, 1537002063,
   1747873779, 1955562222, 2024104815, 2227730452, 2361852424,
   2428436474, 2756734187, 3204031479, 3329325298]

/-- The initial SHA-256 state. -/
def sha256H0 : List Nat :=
  [1779033703, 3144134277, 1013904242, 2773480762,
   1359893119, 2600822924, 528734635, 1541459225]

/-- SHA-256 message padding. -/
def sha256Pad (msg : List Nat) : List Nat :=
  let len := msg.length
  let padZeros := (119 - len % 64) % 64
  let bitLen := len * 8
  msg ++ [0x80] ++ List.replicate padZeros 0 ++
    (List.range 8).map fun i => (bitLen >>> ((7 - i) * 8)) % 256

/-- Split the padded message into 64-byte blocks (fuelled by the length). -/
def toBlocks : Nat → List Nat → List (List Nat)
  | 0, _ => []
  | _, [] => []
  | fuel + 1, bs => bs.take 64 :: toBlocks fuel (bs.drop 64)

/-- The sixteen big-endian words of one block. -/
def blockWords (block : List Nat) : List Nat :=
  (List.range 16).map fun i =>
    ((block.getD (4 * i) 0 * 256 + block.getD (4 * i + 1) 0) * 256 +
      block.getD (4 * i + 2) 0) * 256 + block.getD (4 * i + 3) 0

/-- Message-schedule extension: 48 further words. -/
def extendSchedule : Nat → List Nat → List Nat
  | 0, w => w
  | n + 1, w =>
    let t := w.length
    let s0 :=
      Nat.xor (Nat.xor (rotr32 7 (w.getD (t - 15) 0)) (rotr32 18 (w.getD (t - 15) 0)))
        (w.getD (t - 15) 0 >>> 3)
    let s1 :=
      Nat.xor (Nat.xor (rotr32 17 (w.getD (t - 2) 0)) (rotr32 19 (w.getD (t - 2) 0)))
        (w.getD (t - 2) 0 >>> 10)
    extendSchedule n (w ++ [add32 (add32 s1 (w.getD (t - 7) 0)) (add32 s0 (w.getD (t - 16) 0))])

/-- One round of the SHA-256 compression function. -/
def sha256Round (st : List Nat) (kw : Nat × Nat) : List Nat :=
  match st with
  | [a, b, c, d, e, f, g, h] =>
    let S1 := Nat.xor (Nat.xor (rotr32 6 e) (rotr32 11 e)) (rotr32 25 e)
    let ch := Nat.xor (Nat.land e f) (Nat.land (Nat.xor e 0xFFFFFFFF) g)
    let t1 := add32 (add32 (add32 h S1) (add32 ch kw.1)) kw.2
    let S0 := Nat.xor (Nat.xor (rotr32 2 a) (rotr32 13 a)) (rotr32 22 a)
    let mj := Nat.xor (Nat.xor (Nat.land a b) (Nat.land a c)) (Nat.land b c)
    let t2 := add32 S0 mj
    [add32 t1 t2, a, b, c, add32 d t1, e, f, g]
  | other => other

/-- Process one block against the running state. -/
def sha256Block (h : List Nat) (block : List Nat) : List Nat :=
  let w := extendSchedule 48 (blockWords block)
  let final := (sha256K.zip w).foldl sha256Round h
  List.zipWith add32 h final

/-- SHA-256 digest of a byte list, as eight 32-bit words. -/
def sha256Words (msg : List Nat) : List Nat :=
  let padded := sha256Pad msg
  (toBlocks (padded.length + 1) padded).foldl sha256Block sha256H0

/-- Lower-case hex digit. -/
def hexDigitChar (n : Nat) : Char :=
  if n < 10 then Char.ofNat (48 + n) else Char.ofNat (87 + n)

/-- Eight hex digits of a 32-bit word. -/
def wordHex (x : Nat) : List Char :=
  (List.range 8).map fun i => hexDigitChar ((x >>> ((7 - i) * 4)) % 16)

/-- hashlib.sha256(text.encode()).hexdigest(). -/
def sha256Hexdigest (s : String) : String :=
  ⟨(sha256Words (strBytes s)).foldr (fun w acc => wordHex w ++ acc) []⟩

/-! ## Embedding cache key and lookup (src/parlaplate/match.py lines 16-123) -/

/-- build_item_text (match.py lines 16-37): name, ingredients, keywords and a
truthy category joined with spaces, lower-cased. -/
def build_item_text (it : MenuItem) : String :=
  pyLower (String.intercalate " "
    ([it.name] ++ it.ingredients ++ it.keywords ++
      match it.category with
      | some c => if c = "" then [] else [c]
      | none => []))

/-- JSON string escaping as json.dumps with ensure_ascii performs it (the
concrete menus evaluated below contain printable ASCII only; non-ASCII
characters are emitted as BMP u-escapes). -/
def jsonDumpStringBody (cs : List Char) : List Char :=
  cs.foldr
    (fun c acc =>
      if c = Char.ofNat 34 then Char.ofNat 92 :: Char.ofNat 34 :: acc
      else if c = Char.ofNat 92 then Char.ofNat 92 :: Char.ofNat 92 :: acc
      else if c = '\n' then Char.ofNat 92 :: 'n' :: acc
      else if c = '\r' then Char.ofNat 92 :: 'r' :: acc
      else if c = '\t' then Char.ofNat 92 :: 't' :: acc
      else if c.toNat < 0x20 ∨ 0x7F ≤ c.toNat then
        Char.ofNat 92 :: 'u' ::
          hexDigitChar ((c.toNat >>> 12) % 16) :: hexDigitChar ((c.toNat >>> 8) % 16) ::
          hexDigitChar ((c.toNat >>> 4) % 16) :: hexDigitChar (c.toNat % 16) :: acc
      else c :: acc)
    []

/-- A JSON-dumped string. -/
def jsonDumpStr (s : String) : String :=
  ⟨Char.ofNat 34 :: jsonDumpStringBody s.toList ++ [Char.ofNat 34]⟩

/-- A JSON-dumped list of strings, with the default item separator. -/
def jsonDumpStrList (l : List String) : String :=
  "[" ++ String.intercalate ", " (l.map jsonDumpStr) ++ "]"

/-- A JSON-dumped optional string. -/
def jsonDumpOptStr : Option String → String
  | none => "null"
  | some s => jsonDumpStr s

/-- json.dumps(item.model_dump(), sort_keys=True) for one MenuItem: the seven
fields in alphabetical key order with the default separators. -/
def dumpMenuItem (it : MenuItem) : String :=
  "\x7b\"allergens\": " ++ jsonDumpStrList it.allergens ++
    ", \"category\": " ++ jsonDumpOptStr it.category ++
    ", \"ingredients\": " ++ jsonDumpStrList it.ingredients ++
    ", \"keywords\": " ++ jsonDumpStrList it.keywords ++
    ", \"name\": " ++ jsonDumpStr it.name ++
    ", \"price\": " ++ jsonDumpOptStr it.price ++
    ", \"spice_level\": " ++ jsonDumpOptStr it.spice_level ++ "\x7d"

/-- content_str of get_embedding_cache_path (match.py lines 73-76): the
canonical serialization of the item list, in list order. -/
def menuContentStr (menu : MenuJSON) : String :=
  "[" ++ String.intercalate ", " (menu.items.map dumpMenuItem) ++ "]"

/-- ASCII model of Python isalnum for the characters kept in the safe
restaurant name. -/
def pyIsAlnumAscii (c : Char) : Bool :=
  c.isAlpha || c.isDigit

/-- safe_name (match.py lines 79-80): the truthy restaurant name or unknown,
filtered to alphanumerics, hyphen and underscore, lower-cased. -/
def safeRestaurantName (name : Option String) : String :=
  let n :=
    match name with
    | none => "unknown"
    | some s => if s = "" then "unknown" else s
  pyLower ⟨n.toList.filter fun c => pyIsAlnumAscii c || c = '-' || c = '_'⟩

/-- get_embedding_cache_path (match.py lines 61-82) with the default base
directory: safe restaurant name joined with the first sixteen hex digits of
the SHA-256 of the canonical item serialization. -/
def get_embedding_cache_path (menu : MenuJSON) : String :=
  "opt/menu_content/" ++ safeRestaurantName menu.restaurant.name ++ "_" ++
    ⟨(sha256Hexdigest (menuContentStr menu)).toList.take 16⟩ ++ ".emb.npy"

/-- load_or_compute_embeddings (match.py lines 85-123).  The filesystem is
the load oracle: none models a missing cache file or an np.load that raises,
some m a successful load of matrix m.  The embedding service is the embed
oracle.  The best-effort cache write has no effect on the returned value and
is not modelled. -/
def load_or_compute_embeddings (load : String → Option (List (List ℚ)))
    (embed : List String → List (List ℚ)) (menu : MenuJSON) (force_recompute : Bool) :
    List (List ℚ) :=
  let cache_path := get_embedding_cache_path menu
  match (if force_recompute then none else load cache_path) with
  | some m => m
  | none => embed (menu.items.map build_item_text)

/-! ## Intent gate (src/parlaplate/agent.py lines 128-168) -/

/-- Food-intent vocabulary (agent.py lines 140-147). -/
def intentKeywords : List String :=
  ["acıktım", "aç", "yemek", "yiyecek", "lezzet", "tat", "menü",
   "et", "tavuk", "balık", "sebze", "salata", "çorba", "tatlı",
   "pizza", "burger", "pasta", "döner", "kebab", "pilav",
   "kahvaltı", "öğle", "akşam", "atıştırmalık",
   "vegetarian", "vegan", "gluten", "spicy", "mild", "sweet",
   "salty", "crispy", "grilled", "fried", "soup", "salad"]

/-- Delegation vocabulary (agent.py lines 150-153). -/
def delegationPhrases : List String :=
  ["sen seç", "sana kalmış", "öner", "tavsiye", "istediğin",
   "up to you", "you choose", "recommend", "suggest"]

/-- check_food_intent (agent.py lines 128-168): the lowered current message
plus the lowered content of the last three history turns, scanned first for
delegation phrases and then for food-intent keywords. -/
def check_food_intent (history : List ChatTurn) (user_message : String) : Bool :=
  let all_text :=
    (history.drop (history.length - 3)).foldl
      (fun acc turn => acc ++ " " ++ pyLower turn.content) (pyLower user_message)
  if delegationPhrases.any (fun p => strIn p all_text) then true
  else if intentKeywords.any (fun k => strIn k all_text) then true
  else false

/-! ## Decision normalisation (src/parlaplate/agent.py lines 213-260) -/

/-- Whether a JSON value is a Python dict. -/
def Json.isObj : Json → Bool
  | .obj _ => true
  | _ => false

/-- The fallback action dict (agent.py line 225). -/
def defaultActionDict : Json :=
  .obj [("action", .str "ASK"), ("intent_clear", .bool false), ("notes", .str "fallback")]

/-- An ASK action dict with the given clarification note. -/
def askActionDict (notes : String) : Json :=
  .obj [("action", .str "ASK"), ("intent_clear", .bool false), ("notes", .str notes)]

/-- Python repr of a string: quote choice and escaping as repr performs
them (single quotes unless the string holds a single quote and no double
quote); control characters beyond newline, return and tab are emitted as
two-digit x-escapes. -/
def pyReprString (s : String) : String :=
  let sq := Char.ofNat 39
  let dq := Char.ofNat 34
  let quote := if s.toList.contains sq ∧ ¬s.toList.contains dq then dq else sq
  let body :=
    s.toList.foldr
      (fun c acc =>
        if c = Char.ofNat 92 then Char.ofNat 92 :: Char.ofNat 92 :: acc
        else if c = quote then Char.ofNat 92 :: quote :: acc
        else if c = '\n' then Char.ofNat 92 :: 'n' :: acc
        else if c = '\r' then Char.ofNat 92 :: 'r' :: acc
        else if c = '\t' then Char.ofNat 92 :: 't' :: acc
        else if c.toNat < 0x20 then
          Char.ofNat 92 :: 'x' :: hexDigitChar ((c.toNat >>> 4) % 16) ::
            hexDigitChar (c.toNat % 16) :: acc
        else c :: acc)
      []
  ⟨quote :: body ++ [quote]⟩

mutual

/-- Python str() of a parsed JSON value, as used by the heuristic decision
classifier (agent.py line 246).  Non-integral numbers are rendered as a
quotient; the classifier only ever searches this text for alphabetic
vocabulary words, which no numeric rendering can introduce. -/
def pyRepr : Json → String
  | .null => "None"
  | .bool true => "True"
  | .bool false => "False"
  | .num q => if q.den = 1 then toString q.num else toString q.num ++ "/" ++ toString q.den
  | .nan => "nan"
  | .inf false => "inf"
  | .inf true => "-inf"
  | .str s => pyReprString s
  | .arr l => "[" ++ pyReprList l ++ "]"
  | .obj kvs => "\x7b" ++ pyReprFields kvs ++ "\x7d"

/-- Comma-joined reprs of list elements. -/
def pyReprList : List Json → String
  | [] => ""
  | [x] => pyRepr x
  | x :: y :: xs => pyRepr x ++ ", " ++ pyReprList (y :: xs)

/-- Comma-joined reprs of dict entries. -/
def pyReprFields : List (String × Json) → String
  | [] => ""
  | [(k, v)] => pyReprString k ++ ": " ++ pyRepr v
  | (k, v) :: e :: kvs => pyReprString k ++ ": " ++ pyRepr v ++ ", " ++ pyReprFields (e :: kvs)

end

/-- First dict element of a parsed list (agent.py lines 236-240). -/
def findFirstDict : List Json → Option Json
  | [] => none
  | x :: xs => if x.isObj then some x else findFirstDict xs

/-- Heuristic classification of a dict-free list (agent.py lines 242-253):
the lowered repr of the whole value is scanned for the three vocabulary
groups in order. -/
def classifyPlainList (j : Json) : Json :=
  let txt := pyLower (pyRepr j)
  if ["allergy", "diet", "preference"].any (fun k => strIn k txt) then
    askActionDict "clarify_diet_allergy"
  else if ["drink", "beverage"].any (fun k => strIn k txt) then
    askActionDict "clarify_drink"
  else if ["side", "accompaniment"].any (fun k => strIn k txt) then
    askActionDict "clarify_side"
  else
    askActionDict "general_clarification"

/-- The decision-normalisation step of parse_action_from_response (agent.py
lines 230-259): a non-empty list yields its first dict element or the
heuristic classification; a dict is taken as is; anything else (including an
empty list) leaves the fallback dict in place. -/
def normalize_decision (parsed : Json) : Json :=
  match parsed with
  | .arr (x :: xs) =>
    match findFirstDict (x :: xs) with
    | some d => d
    | none => classifyPlainList (.arr (x :: xs))
  | .obj kvs => .obj kvs
  | _ => defaultActionDict

/-! ## Reply cleanup (src/parlaplate/agent.py lines 261-299)

The four re.sub patterns are hand-compiled deterministic scanners; each is
leftmost, non-overlapping, and continues after the replaced (removed) span,
exactly as re.sub does.  All are fuelled by the input length. -/

/-- First substitution: a brace, a brace-free run containing the quoted key
action, and a closing brace. -/
def sub1 : Nat → List Char → List Char
  | 0, cs => cs
  | _, [] => []
  | fuel + 1, c :: rest =>
    if c = Char.ofNat 123 then
      let run := rest.takeWhile fun x => x ≠ Char.ofNat 123 ∧ x ≠ Char.ofNat 125
      match rest.drop run.length with
      | c2 :: rest2 =>
        if c2 = Char.ofNat 125 ∧ containsSub (Char.ofNat 34 :: "action".toList ++ [Char.ofNat 34]) run then
          sub1 fuel rest2
        else c :: sub1 fuel rest
      | [] => c :: sub1 fuel rest
    else c :: sub1 fuel rest

/-- Second substitution: a literal brace-quote-action-quote prefix and then
everything up to but excluding the next closing brace. -/
def sub2 : Nat → List Char → List Char
  | 0, cs => cs
  | _, [] => []
  | fuel + 1, c :: rest =>
    if (Char.ofNat 123 :: Char.ofNat 34 :: "action".toList ++ [Char.ofNat 34]).isPrefixOf (c :: rest) then
      sub2 fuel ((c :: rest).drop 9 |>.dropWhile fun x => x ≠ Char.ofNat 125)
    else c :: sub2 fuel rest

/-- Shared front of the third and fourth substitutions: a comma, a quoted
non-empty key, optional whitespace, a colon, optional whitespace; returns
the characters after the colon-side whitespace. -/
def matchKeyColon (cs : List Char) : Option (List Char) :=
  match cs with
  | ',' :: q :: rest =>
    if q = Char.ofNat 34 then
      let key := rest.takeWhile fun x => x ≠ Char.ofNat 34
      if key.isEmpty then none
      else
        match rest.drop key.length with
        | q2 :: rest2 =>
          if q2 = Char.ofNat 34 then
            let rest3 := rest2.dropWhile reIsSpace
            match rest3 with
            | ':' :: rest4 => some (rest4.dropWhile reIsSpace)
            | _ => none
          else none
        | [] => none
    else none
  | _ => none

/-- Third substitution: key-colon front, a quoted value, then everything up
to but excluding the next closing brace. -/
def sub3 : Nat → List Char → List Char
  | 0, cs => cs
  | _, [] => []
  | fuel + 1, c :: rest =>
    match matchKeyColon (c :: rest) with
    | some afterColon =>
      (match afterColon with
       | q :: vrest =>
         if q = Char.ofNat 34 then
           let v := vrest.takeWhile fun x => x ≠ Char.ofNat 34
           match vrest.drop v.length with
           | q2 :: vrest2 =>
             if q2 = Char.ofNat 34 then
               sub3 fuel (vrest2.dropWhile fun x => x ≠ Char.ofNat 125)
             else c :: sub3 fuel rest
           | [] => c :: sub3 fuel rest
         else c :: sub3 fuel rest
       | [] => c :: sub3 fuel rest)
    | none => c :: sub3 fuel rest

/-- Fourth substitution: key-colon front, then everything up to but
excluding the next comma or closing brace. -/
def sub4 : Nat → List Char → List Char
  | 0, cs => cs
  | _, [] => []
  | fuel + 1, c :: rest =>
    match matchKeyColon (c :: rest) with
    | some afterColon =>
      sub4 fuel (afterColon.dropWhile fun x => x ≠ ',' ∧ x ≠ Char.ofNat 125)
    | none => c :: sub4 fuel rest

/-- Python startswith on strings. -/
def pyStartsWith (s p : String) : Bool :=
  p.toList.isPrefixOf s.toList

/-- Python endswith on strings. -/
def pyEndsWith (s p : String) : Bool :=
  p.toList.reverse.isPrefixOf s.toList.reverse

/-- Drop the first n characters. -/
def strDropChars (s : String) (n : Nat) : String :=
  ⟨s.toList.drop n⟩

/-- Drop the last n characters. -/
def strDropRightChars (s : String) (n : Nat) : String :=
  ⟨(s.toList.reverse.drop n).reverse⟩

/-- Leading cleanup loop (agent.py lines 276-284). -/
def cleanupStart : Nat → String → String
  | 0, s => s
  | fuel + 1, s =>
    if pyStartsWith s "```" then cleanupStart fuel (pyStrip (strDropChars s 3))
    else if pyStartsWith s "\n" then cleanupStart fuel (pyStrip (strDropChars s 1))
    else if pyStartsWith s "," then cleanupStart fuel (pyStrip (strDropChars s 1))
    else if pyStartsWith s " " || pyStartsWith s "\t" then cleanupStart fuel (pyLstrip s)
    else s

/-- Trailing cleanup loop (agent.py lines 286-294). -/
def cleanupEnd : Nat → String → String
  | 0, s => s
  | fuel + 1, s =>
    if pyEndsWith s "```" then cleanupEnd fuel (pyStrip (strDropRightChars s 3))
    else if pyEndsWith s "\n" then cleanupEnd fuel (pyStrip (strDropRightChars s 1))
    else if pyEndsWith s "\x7d" then cleanupEnd fuel (pyStrip (strDropRightChars s 1))
    else if pyEndsWith s " " || pyEndsWith s "\t" then cleanupEnd fuel (pyRstrip s)
    else s

/-- Reply-text recovery of parse_action_from_response (agent.py lines
261-298): the four substitutions, a strip, the two cleanup loops and the
fixed fallback prompt for an empty residue. -/
def replyCleanup (response_text : String) : String :=
  let cs := response_text.toList
  let t1 := sub1 (cs.length + 1) cs
  let t2 := sub2 (t1.length + 1) t1
  let t3 := sub3 (t2.length + 1) t2
  let t4 := sub4 (t3.length + 1) t3
  let s0 := pyStrip ⟨t4⟩
  let s1 := cleanupStart (s0.toList.length + 1) s0
  let s2 := cleanupEnd (s1.toList.length + 1) s1
  if pyStrip s2 = "" then "Nasıl yardımcı olabilirim?" else s2

/-- parse_action_from_response (agent.py lines 213-301): the extracted JSON
is parsed and normalised into the action dict (the fallback dict on
extraction or parse failure), and the reply text is recovered from the raw
response by the cleanup above. -/
def parse_action_from_response (response_text : String) : Json × String :=
  let action_dict :=
    match extract_json_from_response response_text with
    | none => defaultActionDict
    | some js =>
      match jsonParse js with
      | some v => normalize_decision v
      | none => defaultActionDict
  (action_dict, replyCleanup response_text)

/-! ## The respond turn (src/parlaplate/agent.py lines 303-421) -/

/-- The configuration of UnifiedWaitressAgent that respond reads. -/
structure AgentCfg where
  restaurant : RestaurantProfile
  menu : MenuJSON
  persona_id : String

/-- The oracle for one respond turn: the first completion's text, the
keyword-extraction completion's text, the similarity vector the embedding
backend yields for the ranked query, the second (grounded) completion's
text, and the clock reading used for the order timestamp. -/
structure RespondOracle where
  firstResponse : String
  keywordResponse : String
  sims : List ℚ
  secondResponse : String
  now : Nat

/-- Python or on optional strings: the left value when truthy. -/
def pyOrStr (a : Option String) (b : String) : String :=
  match a with
  | some s => if s = "" then b else s
  | none => b

/-- extract_user_keywords (agent.py lines 60-98) applied to the keyword
completion's text: the extracted JSON array filtered to its strings;
anything else yields the empty keyword list. -/
def extract_user_keywords (keywordResponse : String) : List String :=
  match extract_json_from_response (pyStrip keywordResponse) with
  | none => []
  | some js =>
    match jsonParse js with
    | some (.arr l) =>
      l.filterMap fun x =>
        match x with
        | .str s => some s
        | _ => none
    | some _ => []
    | none => []

/-- finalize_order (agent.py lines 303-327); the literal confidence 0.8 is
the rational four fifths. -/
def finalize_order (cfg : AgentCfg) (selected_items : List String) (now : Nat) : Order :=
  ⟨selected_items.map fun n => ⟨pyStrip n, none⟩,
   cfg.persona_id,
   pyOrStr cfg.restaurant.display_name (pyOrStr cfg.restaurant.name "Unknown"),
   mkRat 4 5,
   (match cfg.restaurant.name with
    | some n => if n = "" then "unknown.json" else "opt/menu_content/" ++ n ++ ".json"
    | none => "unknown.json"),
   now⟩

/-- Membership of the action value in the gated list (agent.py line 381);
a non-string decision value equals none of the three strings. -/
def gatedAction : Json → Bool
  | .str s => s == "LOOKUP" || s == "RECOMMEND" || s == "REFINE"
  | _ => false

/-- Equality of the action value with FINALIZE (agent.py line 408). -/
def finalizeAction : Json → Bool
  | .str s => s == "FINALIZE"
  | _ => false

/-- Python dict .get with default on a parsed JSON value; json.loads keeps
the last of duplicate keys. -/
def pyDictGet (j : Json) (key : String) (dflt : Json) : Json :=
  match j with
  | .obj kvs =>
    match kvs.reverse.find? (fun kv => kv.1 == key) with
    | some kv => kv.2
    | none => dflt
  | _ => dflt

/-- The fixed finalization reply (agent.py line 414). -/
def finalizeReply : String :=
  "✅ Harika! Siparişiniz hazırlanıyor. Aşağıdan sipariş detaylarınızı indirebilirsiniz."

/-- UnifiedWaitressAgent.respond (agent.py lines 329-421) over the oracle:
the local intent gate, the first completion parse, the double-gated
candidate lookup with the grounded second completion, the finalization
branch, and the default branch.  The system prompts only shape the oracle
texts and are not part of the returned state; the exception fallback of the
surrounding try block is unreachable in this effect-free model. -/
def respond (cfg : AgentCfg) (history : List ChatTurn) (user_message : String)
    (o : RespondOracle) : String × Json × List MenuItem × Option Order :=
  let intent_clear := check_food_intent history user_message
  let parsed := parse_action_from_response (pyStrip o.firstResponse)
  let action_dict :=
    if parsed.1.isObj then parsed.1
    else .obj [("action", .str "ASK"), ("intent_clear", .bool false), ("notes", .str "error_fallback")]
  let action := pyDictGet action_dict "action" (.str "ASK")
  if gatedAction action && intent_clear then
    let _keywords := extract_user_keywords o.keywordResponse
    let candidates := rank_candidates cfg.menu.items o.sims ⟨[], [], none⟩ 8
    let reply :=
      if candidates.isEmpty then parsed.2
      else (parse_action_from_response (pyStrip o.secondResponse)).2
    (reply, action, candidates, none)
  else if finalizeAction action then
    (finalizeReply, action, [], some (finalize_order cfg ["Example Item"] o.now))
  else
    (parsed.2, action, [], none)

/-! ## Helper lemmas on list indexing -/

theorem getD_map_of_lt {α β : Type} (l : List α) (f : α → β) (i : Nat) (hi : i < l.length)
    (da : α) (db : β) : (l.map f).getD i db = f (l.getD i da) := by
  rw [List.getD_eq_getElem _ _ (by simpa using hi), List.getD_eq_getElem _ _ hi,
    List.getElem_map]

theorem getD_zipWith_of_lt {α β γ : Type} (f : α → β → γ) (as : List α) (bs : List β) (i : Nat)
    (hi : i < (List.zipWith f as bs).length) (da : α) (db : β) (dc : γ) :
    (List.zipWith f as bs).getD i dc = f (as.getD i da) (bs.getD i db) := by
  have hab : i < as.length ∧ i < bs.length := by
    rw [List.length_zipWith] at hi
    omega
  rw [List.getD_eq_getElem _ _ hi, List.getD_eq_getElem _ _ hab.1,
    List.getD_eq_getElem _ _ hab.2, List.getElem_zipWith]

/-! ## Structure of the ranked index list -/

theorem argsortKeyLe_isTotal (fs : List ℚ) : IsTotal Nat (argsortKeyLe fs) := by
  constructor
  intro i j
  rcases lt_trichotomy (fs.getD i 0) (fs.getD j 0) with h | h | h
  · exact Or.inl (Or.inl h)
  · rcases Nat.le_total i j with hij | hij
    · exact Or.inl (Or.inr ⟨h, hij⟩)
    · exact Or.inr (Or.inr ⟨h.symm, hij⟩)
  · exact Or.inr (Or.inl h)

theorem argsortKeyLe_isTrans (fs : List ℚ) : IsTrans Nat (argsortKeyLe fs) := by
  constructor
  intro i j k hij hjk
  rcases hij with h1 | ⟨e1, l1⟩
  · rcases hjk with h2 | ⟨e2, _⟩
    · exact Or.inl (h1.trans h2)
    · exact Or.inl (e2 ▸ h1)
  · rcases hjk with h2 | ⟨e2, l2⟩
    · exact Or.inl (e1 ▸ h2)
    · exact Or.inr ⟨e1.trans e2, l1.trans l2⟩

theorem stableArgsort_sorted (fs : List ℚ) :
    List.Sorted (argsortKeyLe fs) (stableArgsort fs) := by
  haveI := argsortKeyLe_isTotal fs
  haveI := argsortKeyLe_isTrans fs
  exact List.sorted_insertionSort _ _

theorem stableArgsort_perm (fs : List ℚ) :
    List.Perm (stableArgsort fs) (List.range fs.length) :=
  List.perm_insertionSort _ _

theorem mem_topIndices_lt (fs : List ℚ) (k i : Nat) (h : i ∈ topIndices fs k) :
    i < fs.length := by
  have h1 : i ∈ (stableArgsort fs).reverse := List.mem_of_mem_take h
  have h2 : i ∈ stableArgsort fs := List.mem_reverse.mp h1
  have h3 : i ∈ List.range fs.length := (stableArgsort_perm fs).mem_iff.mp h2
  exact List.mem_range.mp h3

theorem mem_rankIndices_iff (items : List MenuItem) (sims : List ℚ) (cons : Constraints)
    (k i : Nat) :
    i ∈ rankIndices items sims cons k ↔
      i ∈ topIndices (finalScores items sims cons) k ∧
        (0 : ℚ) ≤ (finalScores items sims cons).getD i 0 := by
  unfold rankIndices
  simp [List.mem_filter]

theorem mem_rankIndices_passes (items : List MenuItem) (sims : List ℚ) (cons : Constraints)
    (k i : Nat) (h : i ∈ rankIndices items sims cons k) :
    i < items.length ∧ itemPassesFilter cons (items.getD i dummyMenuItem) = true := by
  obtain ⟨htop, hscore⟩ := (mem_rankIndices_iff items sims cons k i).mp h
  have hlt : i < (finalScores items sims cons).length := mem_topIndices_lt _ _ _ htop
  have hmask : i < (apply_constraints_filter items cons).length ∧
      i < (dampedSims items sims cons.price_preference).length := by
    unfold finalScores at hlt
    rw [List.length_zipWith] at hlt
    omega
  have hitems : i < items.length := by
    have := hmask.1
    unfold apply_constraints_filter at this
    simpa using this
  refine ⟨hitems, ?_⟩
  by_contra hfail
  have hmaskval : (apply_constraints_filter items cons).getD i false = false := by
    unfold apply_constraints_filter
    rw [getD_map_of_lt items _ i hitems dummyMenuItem false]
    exact Bool.not_eq_true _ ▸ hfail
  have hscore2 : (finalScores items sims cons).getD i 0 =
      (if (apply_constraints_filter items cons).getD i false then
        (dampedSims items sims cons.price_preference).getD i 0 else -1) := by
    unfold finalScores
    exact getD_zipWith_of_lt _ _ _ i hlt false 0 0
  rw [hmaskval] at hscore2
  have hneg : (finalScores items sims cons).getD i 0 = -1 := by
    simpa using hscore2
  rw [hneg] at hscore
  norm_num at hscore

/-- Consequences of a true keep-mask entry: the allergen test missed (when
the avoid list is non-empty) and every requested diet tag's vocabulary
missed. -/
theorem itemPassesFilter_spec (cons : Constraints) (it : MenuItem)
    (h : itemPassesFilter cons it = true) :
    (cons.avoid_allergens ≠ [] → allergenHit cons.avoid_allergens it = false) ∧
    (∀ d ∈ cons.diet, pyLower d = "vegetarian" →
      (meatTerms.any fun t => strIn t (itemFilterText it)) = false) ∧
    (∀ d ∈ cons.diet, pyLower d = "vegan" →
      (nonVeganTerms.any fun t => strIn t (itemFilterText it)) = false) := by
  unfold itemPassesFilter at h
  by_cases hA : (!cons.avoid_allergens.isEmpty && allergenHit cons.avoid_allergens it) = true
  · rw [if_pos hA] at h
    exact absurd h (by simp)
  · rw [if_neg hA] at h
    have hAll : cons.avoid_allergens ≠ [] → allergenHit cons.avoid_allergens it = false := by
      intro hne
      rcases Bool.and_eq_false_iff.mp (Bool.not_eq_true _ ▸ hA) with h1 | h2
      · exact absurd (List.isEmpty_iff.mp (by simpa using h1)) hne
      · exact h2
    have hdiet : ∀ d ∈ cons.diet, dietTagOk it d = true := by
      intro d hd
      have hne : cons.diet ≠ [] := by
        intro hnil
        rw [hnil] at hd
        exact List.not_mem_nil d hd
      have : (!cons.diet.isEmpty) = true := by
        simp [List.isEmpty_iff, hne]
      rw [if_pos this] at h
      unfold dietOk at h
      exact List.all_eq_true.mp h d hd
    refine ⟨hAll, ?_, ?_⟩
    · intro d hd hveg
      have := hdiet d hd
      unfold dietTagOk at this
      rw [if_pos hveg] at this
      simpa using this
    · intro d hd hvegan
      have := hdiet d hd
      unfold dietTagOk at this
      have hnotveg : ¬(pyLower d = "vegetarian") := by
        rw [hvegan]
        decide
      rw [if_neg hnotveg, if_pos hvegan] at this
      simpa using this

/-- C1: For every menu item list, similarity vector, constraints dictionary
and k, an item returned by rank_candidates never has an allergen in a
non-empty avoid list (case-insensitively), and never matches the exclusion
vocabulary of a requested vegetarian or vegan diet tag, regardless of its
similarity score. -/
theorem rank_candidates_respects_hard_filters (items : List MenuItem) (sims : List ℚ)
    (cons : Constraints) (k : Nat) (x : MenuItem)
    (hx : x ∈ rank_candidates items sims cons k) :
    (cons.avoid_allergens ≠ [] → allergenHit cons.avoid_allergens x = false) ∧
    (∀ d ∈ cons.diet, pyLower d = "vegetarian" →
      (meatTerms.any fun t => strIn t (itemFilterText x)) = false) ∧
    (∀ d ∈ cons.diet, pyLower d = "vegan" →
      (nonVeganTerms.any fun t => strIn t (itemFilterText x)) = false) := by
  unfold rank_candidates at hx
  by_cases hemp : items.isEmpty
  · rw [if_pos hemp] at hx
    exact absurd hx (List.not_mem_nil x)
  · rw [if_neg hemp] at hx
    obtain ⟨i, hi, hix⟩ := List.mem_map.mp hx
    obtain ⟨_, hpass⟩ := mem_rankIndices_passes items sims cons k i hi
    rw [hix] at hpass
    exact itemPassesFilter_spec cons x hpass

/-- A clean item used to instantiate the hard-filter theorem. -/
def saladItem : MenuItem :=
  ⟨"salad", none, ["lettuce"], ["green"], [], none, none⟩

/-- A nut-avoiding vegetarian constraint set. -/
def vegNutsCons : Constraints :=
  ⟨["nuts"], ["vegetarian"], none⟩

/-- Witness for C1 at a concrete menu: the clean salad is returned under a
nut-avoiding vegetarian constraint set and satisfies every exclusion. -/
theorem rank_candidates_respects_hard_filters_witness :
    saladItem ∈ rank_candidates [saladItem] [1] vegNutsCons 1 ∧
    (vegNutsCons.avoid_allergens ≠ [] →
      allergenHit vegNutsCons.avoid_allergens saladItem = false) ∧
    (∀ d ∈ vegNutsCons.diet, pyLower d = "vegetarian" →
      (meatTerms.any fun t => strIn t (itemFilterText saladItem)) = false) ∧
    (∀ d ∈ vegNutsCons.diet, pyLower d = "vegan" →
      (nonVeganTerms.any fun t => strIn t (itemFilterText saladItem)) = false) :=
  ⟨by decide,
   rank_candidates_respects_hard_filters [saladItem] [1] vegNutsCons 1 saladItem (by decide)⟩

/-! ## Order of the returned ranking -/

/-- The order in which rank_candidates emits indices: strictly larger final
score first; on equal scores the larger original index first (the reversal
of a stable ascending argsort reverses ties). -/
def rankedAbove (fs : List ℚ) (i j : Nat) : Prop :=
  fs.getD j 0 < fs.getD i 0 ∨ (fs.getD i 0 = fs.getD j 0 ∧ j < i)

theorem rankIndices_sublist_reverse (items : List MenuItem) (sims : List ℚ) (cons : Constraints)
    (k : Nat) :
    List.Sublist (rankIndices items sims cons k)
      ((stableArgsort (finalScores items sims cons)).reverse) := by
  unfold rankIndices topIndices
  exact (List.filter_sublist _).trans (List.take_sublist _ _)

/-- C3 (amended): rank_candidates returns at most k items and the returned
index sequence is sorted by non-strictly descending final score, for every
input — both facts hold for any sorted index permutation np.argsort may
produce.  The tie order is asserted only where the model is faithful to
np.argsort: for score vectors of at most fifteen entries (below numpy's
insertion-sort cutoff) two returned indices with identical final scores
appear in reverse original order, not the original order the claim states.
The model satisfies the tie law at every length, so the length bound is a
fidelity boundary and the proof does not consume it. -/
theorem rank_candidates_topk_sorted (items : List MenuItem) (sims : List ℚ) (cons : Constraints)
    (k : Nat) :
    (rank_candidates items sims cons k).length ≤ k ∧
    List.Pairwise
      (fun i j => (finalScores items sims cons).getD j 0 ≤ (finalScores items sims cons).getD i 0)
      (rankIndices items sims cons k) ∧
    ((finalScores items sims cons).length ≤ 15 →
      List.Pairwise (rankedAbove (finalScores items sims cons))
        (rankIndices items sims cons k)) := by
  have hpair : List.Pairwise (rankedAbove (finalScores items sims cons))
      (rankIndices items sims cons k) := by
    have hsor : List.Pairwise
        (fun a b => argsortKeyLe (finalScores items sims cons) b a)
        ((stableArgsort (finalScores items sims cons)).reverse) :=
      List.pairwise_reverse.mpr (stableArgsort_sorted (finalScores items sims cons))
    have hsub := rankIndices_sublist_reverse items sims cons k
    have hpw := hsor.sublist hsub
    have hnd : ((stableArgsort (finalScores items sims cons)).reverse).Nodup := by
      rw [List.nodup_reverse]
      exact (stableArgsort_perm (finalScores items sims cons)).nodup_iff.mpr
        (List.nodup_range _)
    have hndr : (rankIndices items sims cons k).Nodup := List.Nodup.sublist hsub hnd
    refine (hpw.and hndr).imp ?_
    rintro a b ⟨hkey, hne⟩
    rcases hkey with hlt | ⟨heq, hle⟩
    · exact Or.inl hlt
    · exact Or.inr ⟨heq.symm, lt_of_le_of_ne hle (Ne.symm hne)⟩
  refine ⟨?_, ?_, fun _ => hpair⟩
  · unfold rank_candidates
    split
    · simp
    · rw [List.length_map]
      calc (rankIndices items sims cons k).length
          ≤ (topIndices (finalScores items sims cons) k).length := List.length_filter_le _ _
        _ ≤ k := by
            unfold topIndices
            rw [List.length_take]
            exact min_le_left _ _
  · refine hpair.imp ?_
    rintro a b hab
    rcases hab with hlt | ⟨heq, _⟩
    · exact le_of_lt hlt
    · exact le_of_eq heq.symm

/-- An item used in tie and sentinel counterexamples. -/
def tieItemA : MenuItem := ⟨"alpha", none, [], [], [], none, none⟩

/-- A second, distinct item for the tie counterexample. -/
def tieItemB : MenuItem := ⟨"beta", none, [], [], [], none, none⟩

/-- The empty constraints dictionary. -/
def emptyCons : Constraints := ⟨[], [], none⟩

/-- Counterexample to C3 as stated: two items with identical scores are
returned in reverse original order, not in original order. -/
theorem rank_candidates_tie_order_reversed :
    rank_candidates [tieItemA, tieItemB] [mkRat 1 2, mkRat 1 2] emptyCons 2 =
      [tieItemB, tieItemA] ∧
    rank_candidates [tieItemA, tieItemB] [mkRat 1 2, mkRat 1 2] emptyCons 2 ≠
      [tieItemA, tieItemB] := by
  decide

/-- Witness for the amended C3 at the concrete two-item tie, whose score
vector is short enough for the tie-order clause to apply. -/
theorem rank_candidates_topk_sorted_witness :
    (rank_candidates [tieItemA, tieItemB] [mkRat 1 2, mkRat 1 2] emptyCons 2).length ≤ 2 ∧
    List.Pairwise (rankedAbove (finalScores [tieItemA, tieItemB] [mkRat 1 2, mkRat 1 2] emptyCons))
      (rankIndices [tieItemA, tieItemB] [mkRat 1 2, mkRat 1 2] emptyCons 2) :=
  ⟨(rank_candidates_topk_sorted [tieItemA, tieItemB] [mkRat 1 2, mkRat 1 2] emptyCons 2).1,
   (rank_candidates_topk_sorted [tieItemA, tieItemB] [mkRat 1 2, mkRat 1 2] emptyCons 2).2.2
     (by decide)⟩

/-- Final score of an item failing the hard filter. -/
theorem finalScores_masked (items : List MenuItem) (sims : List ℚ) (cons : Constraints) (i : Nat)
    (hlt : i < (finalScores items sims cons).length)
    (hfail : itemPassesFilter cons (items.getD i dummyMenuItem) = false) :
    (finalScores items sims cons).getD i 0 = -1 := by
  have hitems : i < items.length := by
    unfold finalScores at hlt
    rw [List.length_zipWith] at hlt
    have h1 : i < (apply_constraints_filter items cons).length := by omega
    unfold apply_constraints_filter at h1
    simpa using h1
  have hmaskval : (apply_constraints_filter items cons).getD i false = false := by
    unfold apply_constraints_filter
    rw [getD_map_of_lt items _ i hitems dummyMenuItem false]
    exact hfail
  have hscore2 : (finalScores items sims cons).getD i 0 =
      (if (apply_constraints_filter items cons).getD i false then
        (dampedSims items sims cons.price_preference).getD i 0 else -1) := by
    unfold finalScores
    exact getD_zipWith_of_lt _ _ _ i hlt false 0 0
  rw [hmaskval] at hscore2
  simpa using hscore2

/-- C9 (amended): an index is returned exactly when it is ranked within the
top k and its final score is at least zero (the return boundary is zero, not
the sentinel), and the sentinel score of every hard-filter-failing item is
exactly -1. -/
theorem rank_return_boundary (items : List MenuItem) (sims : List ℚ) (cons : Constraints)
    (k i : Nat) :
    (i ∈ rankIndices items sims cons k ↔
      i ∈ topIndices (finalScores items sims cons) k ∧
        (0 : ℚ) ≤ (finalScores items sims cons).getD i 0) ∧
    (i < (finalScores items sims cons).length →
      itemPassesFilter cons (items.getD i dummyMenuItem) = false →
      (finalScores items sims cons).getD i 0 = -1) :=
  ⟨mem_rankIndices_iff items sims cons k i, finalScores_masked items sims cons i⟩

/-- An item carrying an allergen, for the sentinel witness. -/
def nutCakeItem : MenuItem := ⟨"cake", none, [], [], ["Nuts"], none, none⟩

/-- A constraints dictionary avoiding that allergen. -/
def nutsCons : Constraints := ⟨["nuts"], [], none⟩

/-- Witness for the amended C9 at a concrete masked item: its final score is
the sentinel -1 and the membership equivalence holds at index zero. -/
theorem rank_return_boundary_witness :
    (0 ∈ rankIndices [nutCakeItem] [1] nutsCons 1 ↔
      0 ∈ topIndices (finalScores [nutCakeItem] [1] nutsCons) 1 ∧
        (0 : ℚ) ≤ (finalScores [nutCakeItem] [1] nutsCons).getD 0 0) ∧
    (finalScores [nutCakeItem] [1] nutsCons).getD 0 0 = -1 :=
  ⟨(rank_return_boundary [nutCakeItem] [1] nutsCons 1 0).1,
   (rank_return_boundary [nutCakeItem] [1] nutsCons 1 0).2 (by decide) (by decide)⟩

/-- Counterexample to C9 as stated: a hard-filter-passing item whose valid
cosine similarity is negative is ranked within the top one yet dropped,
although its score sits strictly above the sentinel. -/
theorem negative_score_item_dropped :
    itemPassesFilter emptyCons tieItemA = true ∧
    -(1 : ℚ) < -(mkRat 1 2) ∧
    rank_candidates [tieItemA] [-(mkRat 1 2)] emptyCons 1 = [] := by
  decide

/-! ## The embedding cache key -/

/-- C5 (amended): the cache storage key is a function of the item sequence
and the restaurant name alone — menus agreeing on both derive the same key,
whatever their filenames, storage paths or remaining profile fields. -/
theorem cache_path_content_addressed (m1 m2 : MenuJSON) (hitems : m1.items = m2.items)
    (hname : m1.restaurant.name = m2.restaurant.name) :
    get_embedding_cache_path m1 = get_embedding_cache_path m2 := by
  unfold get_embedding_cache_path safeRestaurantName menuContentStr
  rw [hitems, hname]

/-- The restaurant profile of the concrete cache-key menus. -/
def cacheResto : RestaurantProfile :=
  ⟨some "r", none, [], none, [], [], [], "sum"⟩

/-- The same restaurant under a different display name and summary. -/
def cacheRestoAlt : RestaurantProfile :=
  ⟨some "r", some "R Diner", [], none, [], [], [], "other"⟩

/-- First concrete menu item for the cache-key theorems. -/
def cacheItemA : MenuItem := ⟨"a", none, [], [], [], none, none⟩

/-- Second concrete menu item for the cache-key theorems. -/
def cacheItemB : MenuItem := ⟨"b", none, [], [], [], none, none⟩

/-- Witness for the amended C5: two menus with the same item sequence and
restaurant name but different profile fields share the cache key. -/
theorem cache_path_content_addressed_witness :
    get_embedding_cache_path ⟨cacheResto, [cacheItemA, cacheItemB]⟩ =
      get_embedding_cache_path ⟨cacheRestoAlt, [cacheItemA, cacheItemB]⟩ :=
  cache_path_content_addressed ⟨cacheResto, [cacheItemA, cacheItemB]⟩
    ⟨cacheRestoAlt, [cacheItemA, cacheItemB]⟩ rfl rfl

set_option maxRecDepth 400000 in
/-- Counterexample to C5 as stated: two menus whose item lists hold the same
items as a set (a permutation of one another) and whose restaurant names are
equal derive different cache keys, because the content hash serializes the
item list in order. -/
theorem cache_path_order_dependent :
    List.Perm [cacheItemA, cacheItemB] [cacheItemB, cacheItemA] ∧
    get_embedding_cache_path ⟨cacheResto, [cacheItemA, cacheItemB]⟩ ≠
      get_embedding_cache_path ⟨cacheResto, [cacheItemB, cacheItemA]⟩ := by
  refine ⟨List.Perm.swap cacheItemB cacheItemA [], ?_⟩
  decide

/-! ## The embedding cache lookup -/

/-- C7 (amended): when the cache has no loadable entry at the derived key
(or recomputation is forced) and the embedding service returns one row per
input text, the returned matrix has exactly one row per menu item.  A cache
entry that loads successfully is returned without any row-count check. -/
theorem embeddings_rowcount_on_miss (load : String → Option (List (List ℚ)))
    (embed : List String → List (List ℚ)) (menu : MenuJSON) (force_recompute : Bool)
    (hmiss : load (get_embedding_cache_path menu) = none)
    (hembed : ∀ ts, (embed ts).length = ts.length) :
    (load_or_compute_embeddings load embed menu force_recompute).length =
      menu.items.length := by
  unfold load_or_compute_embeddings
  cases force_recompute
  · simp [hmiss, hembed]
  · simp [hembed]

/-- Witness for the amended C7 on a concrete empty cache and a row-per-text
embedding function. -/
theorem embeddings_rowcount_on_miss_witness :
    ((fun _ => none) : String → Option (List (List ℚ)))
        (get_embedding_cache_path ⟨cacheResto, [cacheItemA, cacheItemB]⟩) = none ∧
    (load_or_compute_embeddings (fun _ => none) (fun ts => ts.map fun _ => [0])
        ⟨cacheResto, [cacheItemA, cacheItemB]⟩ false).length =
      (⟨cacheResto, [cacheItemA, cacheItemB]⟩ : MenuJSON).items.length :=
  ⟨rfl,
   embeddings_rowcount_on_miss (fun _ => none) (fun ts => ts.map fun _ => [0])
     ⟨cacheResto, [cacheItemA, cacheItemB]⟩ false rfl
     (fun ts => List.length_map ts _)⟩

/-- Counterexample to C7 as stated: a stored cache entry whose row count
cannot match the menu (one row against two items) loads successfully and is
returned as is; the row-count invariant is never verified and the entry is
not treated as absent. -/
theorem embeddings_rowcount_unverified :
    (load_or_compute_embeddings (fun _ => some [[1]]) (fun ts => ts.map fun _ => [0])
        ⟨cacheResto, [cacheItemA, cacheItemB]⟩ false).length = 1 ∧
    (⟨cacheResto, [cacheItemA, cacheItemB]⟩ : MenuJSON).items.length = 2 := by
  constructor
  · rfl
  · rfl

/-! ## The extractor on brackets inside string literals -/

/-- A JSON object whose single string value is a closing brace. -/
def braceInStringInput : String := "\x7b\"a\": \"\x7d\"\x7d"

/-- Counterexample to C4 as stated: the input is itself a valid JSON object
containing a closing brace inside a string literal, yet extraction returns
none — the brace inside the string moved the depth counter, sliced an
invalid span, and every later phase failed. -/
theorem extract_brace_in_string_missed :
    jsonValid braceInStringInput = true ∧
    extract_json_from_response braceInStringInput = none := by
  decide

/-- C4 (amended): the bracket-depth scan does not track string literals —
a bracket character inside a quoted string changes the counter, so the
enclosing value of this stripped, fully valid input is never extracted. -/
theorem extract_scan_not_string_aware :
    pyStrip braceInStringInput = braceInStringInput ∧
    jsonValid braceInStringInput = true ∧
    extract_json_from_response braceInStringInput = none := by
  decide

/-! ## The extractor on the documented examples -/

/-- C8 (amended): the three documented examples hold, and any span the array
bracket scan accepts is returned before objects are ever considered; but an
array that the scan misses does not take priority (see the counterexample). -/
theorem extractor_examples :
    extract_json_from_response "noise \x7b\"a\":1\x7d trailing" = some "\x7b\"a\":1\x7d" ∧
    extract_json_from_response "[1,2,]bad then [1,2]" = some "[1,2]" ∧
    extract_json_from_response "no json here" = none ∧
    (∀ s j, bracketScan '[' ']' (pyStrip s).toList (pyStrip s).toList 0 none 0 = some j →
      extract_json_from_response s = some j) := by
  refine ⟨by decide, by decide, by decide, ?_⟩
  intro s j h
  unfold extract_json_from_response
  simp only [h]

/-- Witness for the amended C8: the array-scan priority clause applied to a
concrete bare array. -/
theorem extractor_examples_witness :
    extract_json_from_response "[1,2]" = some "[1,2]" :=
  extractor_examples.2.2.2 "[1,2]" "[1,2]" (by decide)

/-- Counterexample to C8 as stated: a text containing the valid array [1]
(which the depth scan misses because of an unbalanced outer bracket) yields
the later valid object, so a valid array somewhere in the text does not
always take priority over a valid object. -/
theorem missed_array_loses_priority :
    extract_json_from_response "[[1] \x7b\"a\":1\x7d" = some "\x7b\"a\":1\x7d" ∧
    strIn "[1]" "[[1] \x7b\"a\":1\x7d" = true ∧
    jsonValid "[1]" = true := by
  decide

/-! ## The local intent gate over respond -/

theorem gated_not_finalize (a : Json) (h : gatedAction a = true) : finalizeAction a = false := by
  cases a with
  | str s =>
    simp only [gatedAction, Bool.or_eq_true, beq_iff_eq] at h
    rcases h with (h | h) | h <;> subst h <;> rfl
  | _ => rfl

/-- C2: whenever the local intent signal is false, respond returns an empty
candidate list, and under a gated decision action (LOOKUP, RECOMMEND or
REFINE) the reply is exactly the reply recovered from the first completion
(no grounded second completion is consulted) and no order is produced. -/
theorem respond_gated_by_local_intent (cfg : AgentCfg) (history : List ChatTurn)
    (user_message : String) (o : RespondOracle)
    (h : check_food_intent history user_message = false) :
    (respond cfg history user_message o).2.2.1 = [] ∧
    (gatedAction ((respond cfg history user_message o).2.1) = true →
      (respond cfg history user_message o).1 =
        (parse_action_from_response (pyStrip o.firstResponse)).2 ∧
      (respond cfg history user_message o).2.2.2 = none) := by
  simp only [respond, h, Bool.and_false, Bool.false_eq_true, if_false]
  split
  all_goals split
  · rename_i hfin
    refine ⟨by simp, fun hg => ?_⟩
    simp at hg
    rw [gated_not_finalize _ hg] at hfin
    exact absurd hfin Bool.false_ne_true
  · simp
  · rename_i hfin
    refine ⟨by simp, fun hg => ?_⟩
    simp at hg
    rw [gated_not_finalize _ hg] at hfin
    exact absurd hfin Bool.false_ne_true
  · simp

/-- The agent configuration used in concrete respond runs. -/
def witCfg : AgentCfg := ⟨cacheResto, ⟨cacheResto, [tieItemA]⟩, "p1"⟩

/-- An oracle whose first completion decides RECOMMEND. -/
def recommendOracle : RespondOracle :=
  ⟨"\x7b\"action\": \"RECOMMEND\"\x7d", "[]", [1], "", 0⟩

/-- Witness for C2 on the documented concrete turn: history empty, message
hello, model decision RECOMMEND — intent is false and the gate holds. -/
theorem respond_gated_by_local_intent_witness :
    check_food_intent [] "hello" = false ∧
    ((respond witCfg [] "hello" recommendOracle).2.2.1 = [] ∧
     (gatedAction ((respond witCfg [] "hello" recommendOracle).2.1) = true →
       (respond witCfg [] "hello" recommendOracle).1 =
         (parse_action_from_response (pyStrip recommendOracle.firstResponse)).2 ∧
       (respond witCfg [] "hello" recommendOracle).2.2.2 = none)) :=
  ⟨by decide, respond_gated_by_local_intent witCfg [] "hello" recommendOracle (by decide)⟩

/-! ## Shape-mismatched decisions normalise to ASK -/

theorem findFirstDict_none (l : List Json) (h : l.all (fun x => !x.isObj) = true) :
    findFirstDict l = none := by
  induction l with
  | nil => rfl
  | cons x xs ih =>
    rw [List.all_cons, Bool.and_eq_true] at h
    unfold findFirstDict
    rw [if_neg (by simpa using h.1)]
    exact ih h.2

/-- C6: a syntactically valid decision payload that is an array with no
mapping element normalises to an action of ASK — never a gated action and
never FINALIZE — and when the flattened repr text contains an
allergy/diet/preference term the note is the diet clarification. -/
theorem normalize_non_mapping_is_ask (l : List Json) (hnd : l.all (fun x => !x.isObj) = true) :
    pyDictGet (normalize_decision (.arr l)) "action" (.str "ASK") = .str "ASK" ∧
    gatedAction (pyDictGet (normalize_decision (.arr l)) "action" (.str "ASK")) = false ∧
    finalizeAction (pyDictGet (normalize_decision (.arr l)) "action" (.str "ASK")) = false ∧
    (l ≠ [] →
      (["allergy", "diet", "preference"].any fun t =>
        strIn t (pyLower (pyRepr (.arr l)))) = true →
      pyDictGet (normalize_decision (.arr l)) "notes" .null = .str "clarify_diet_allergy") ∧
    (∀ j : Json, j.isObj = false → (∀ l2, j ≠ .arr l2) →
      normalize_decision j = defaultActionDict) := by
  have hscalar : ∀ j : Json, j.isObj = false → (∀ l2, j ≠ .arr l2) →
      normalize_decision j = defaultActionDict := by
    intro j hobj harr
    cases j with
    | arr l2 => exact absurd rfl (harr l2)
    | obj kvs => exact absurd hobj (by simp [Json.isObj])
    | null => rfl
    | bool b => rfl
    | num q => rfl
    | nan => rfl
    | inf b => rfl
    | str s => rfl
  cases l with
  | nil =>
    refine ⟨rfl, rfl, rfl, fun hne _ => absurd rfl hne, hscalar⟩
  | cons x xs =>
    have hnorm : normalize_decision (.arr (x :: xs)) = classifyPlainList (.arr (x :: xs)) := by
      dsimp only [normalize_decision]
      rw [findFirstDict_none _ hnd]
    have hcls : ∃ n, classifyPlainList (.arr (x :: xs)) = askActionDict n := by
      dsimp only [classifyPlainList]
      split
      · exact ⟨_, rfl⟩
      · split
        · exact ⟨_, rfl⟩
        · split
          · exact ⟨_, rfl⟩
          · exact ⟨_, rfl⟩
    obtain ⟨n, hn⟩ := hcls
    rw [hnorm, hn]
    refine ⟨rfl, rfl, rfl, fun _ hterm => ?_, hscalar⟩
    rw [← hn]
    dsimp only [classifyPlainList]
    rw [if_pos hterm]
    rfl

/-- Witness for C6 on the documented malformed payload, a bare array holding
the string allergy_or_diet: the action is ASK and the note is the diet
clarification. -/
theorem normalize_non_mapping_is_ask_witness :
    pyDictGet (normalize_decision (.arr [.str "allergy_or_diet"])) "action" (.str "ASK") =
      .str "ASK" ∧
    pyDictGet (normalize_decision (.arr [.str "allergy_or_diet"])) "notes" .null =
      .str "clarify_diet_allergy" :=
  have h := normalize_non_mapping_is_ask [.str "allergy_or_diet"] (by decide)
  ⟨h.1, h.2.2.2.1 (by simp) (by decide)⟩

/-! ## The placeholder order of FINALIZE -/

theorem mkRat_four_fifths : (mkRat 4 5 : ℚ) = 4 / 5 := by
  norm_num [Rat.mkRat_eq_div]

/-- C10: whenever respond returns an order, its item list is exactly the
single placeholder item named Example Item with no notes and its confidence
is exactly 0.8, independent of the conversation, the message, the menu and
the oracle. -/
theorem respond_finalize_placeholder (cfg : AgentCfg) (history : List ChatTurn)
    (user_message : String) (o : RespondOracle) (ord : Order)
    (h : (respond cfg history user_message o).2.2.2 = some ord) :
    ord.order = [⟨"Example Item", none⟩] ∧ ord.confidence = 4 / 5 := by
  simp only [respond] at h
  split at h
  all_goals split at h
  · simp at h
  · split at h
    · have hord : finalize_order cfg ["Example Item"] o.now = ord := by simpa using h
      subst hord
      constructor
      · simp only [finalize_order]
        decide
      · simp only [finalize_order]
        exact mkRat_four_fifths
    · simp at h
  · simp at h
  · split at h
    · have hord : finalize_order cfg ["Example Item"] o.now = ord := by simpa using h
      subst hord
      constructor
      · simp only [finalize_order]
        decide
      · simp only [finalize_order]
        exact mkRat_four_fifths
    · simp at h

/-- An oracle whose first completion decides FINALIZE. -/
def finalizeOracle : RespondOracle :=
  ⟨"\x7b\"action\": \"FINALIZE\"\x7d", "", [], "", 42⟩

/-- Witness for C10: a concrete FINALIZE turn produces exactly the
placeholder order, and the theorem applies to it. -/
theorem respond_finalize_placeholder_witness :
    (respond witCfg [] "hello" finalizeOracle).2.2.2 =
      some (finalize_order witCfg ["Example Item"] 42) ∧
    (finalize_order witCfg ["Example Item"] 42).order = [⟨"Example Item", none⟩] ∧
    (finalize_order witCfg ["Example Item"] 42).confidence = 4 / 5 :=
  have h : (respond witCfg [] "hello" finalizeOracle).2.2.2 =
      some (finalize_order witCfg ["Example Item"] 42) := by decide
  ⟨h, respond_finalize_placeholder witCfg [] "hello" finalizeOracle _ h⟩

end ParlaPlate
